import Mathlib

/-!
Shallow embedding of the drone-mesh-mapper detector/head-end core
(repository `colonelpanichacks/drone-mesh-mapper`).

Embedded components, translated from the C++ sources:
  * UAV tracking registry and slot management (`next_uav` in
    `node-mode-c5/src/main_remote.cpp` and `node-mode-dualcore/src/main_remote.cpp`,
    `next_uav` in `remoteid-mesh-dualcore-c5/src/main.cpp`);
  * the BLE scan-result handler (`DroneIDCallback::onResult`);
  * the WiFi NAN action-frame store path (`wifiCallback`);
  * the dual-band channel-hop scheduler (`hopChannel` and the gating in `loop`);
  * the head-end dedup engine (`dedupFind`, `dedupAlloc`, `dedupCleanStale`,
    `processJsonLine`, `looksLikeJSON`, `processLine` in
    `node-mode-c5/src/main_home.cpp` / `node-mode-dualcore/src/main_home.cpp`);
  * the bounded print queue (capacity `MAX_UAVS * 2` from `setup()`).

Modelling conventions:
  * `uint32_t` / `unsigned long` timestamps and counters are `Nat` with
    explicit `% 2^32` (`u32`, `u32sub`) where the C code can overflow or wrap;
    `uint8_t` counters use `% 2^8` (`u8`).
  * `double` telemetry payload fields (latitude, longitude, ...) are only ever
    copied by the embedded code, never used arithmetically, so they are
    modelled as `Int` values.
  * The opendroneid library decoders (`decodeBasicIDMessage`, ...) are external
    to the repository; they are modelled as an abstract decode environment
    `DecodeEnv`.  All four encoded single-message types of that library are
    25 bytes long (`ODID_MESSAGE_SIZE`), which is the value of the
    `sizeof(ODID_*_encoded)` guards in the BLE handler.
  * C locals that are read without having been initialised (the `basic`,
    `loc`, `sys`, `op` locals in the BLE handler when the size guard fails)
    are modelled by an explicit `UninitLocals` record of indeterminate values.
  * `strncpy` identifier truncation is immaterial to the claims (library
    decoders produce bounded strings) and strings are copied whole.
-/

/-! ## Machine-integer helpers -/

def U32M : Nat := 4294967296

/-- Value of a C `uint32_t` / 32-bit `unsigned long`. -/
def u32 (n : Nat) : Nat := n % U32M

/-- C unsigned 32-bit subtraction `a - b` (wraparound). -/
def u32sub (a b : Nat) : Nat := (a % U32M + (U32M - b % U32M)) % U32M

/-- Value of a C `uint8_t`. -/
def u8 (n : Nat) : Nat := n % 256

/-- `UINT32_MAX`, the initial `oldest_time` of the eviction scans. -/
def UINT32_MAX : Nat := 4294967295

/-! ## Generic scan helpers shared by the C linear-scan loops -/

/-- Index of the first list element satisfying `p` (the shape of the
`for (i = 0; i < N; i++) if (pred(x[i])) return &x[i];` loops). -/
def scanFind (p : α → Bool) : List α → Option Nat
  | [] => none
  | x :: rest => if p x then some 0 else (scanFind p rest).map (· + 1)

/-- The oldest-wins eviction scan over a list of `last_seen` values:
`oldest_time = UINT32_MAX; oldest_idx = bi; for (...) if (t[i] < oldest_time)
{ oldest_time = t[i]; oldest_idx = i; }`.  `i` is the index of the current
element, `bi`/`bt` the best index and best time so far. -/
def oldestScan : List Nat → Nat → Nat → Nat → Nat
  | [], _, bi, _ => bi
  | t :: rest, i, bi, bt =>
      if t < bt then oldestScan rest (i + 1) i t
      else oldestScan rest (i + 1) bi bt

/-- Index selected by the full eviction loop (`oldest_idx` starts at 0,
`oldest_time` at `UINT32_MAX`). -/
def oldestIdx (l : List Nat) : Nat := oldestScan l 0 0 UINT32_MAX

/-! ## UAV tracking registry (detector nodes) -/

/-- A 6-byte hardware address (`uint8_t mac[6]`). -/
structure Mac where
  b0 : Nat
  b1 : Nat
  b2 : Nat
  b3 : Nat
  b4 : Nat
  b5 : Nat
deriving DecidableEq, Repr

/-- The all-zero MAC left by `memset(uavs, 0, sizeof(uavs))`. -/
def zeroMac : Mac := ⟨0, 0, 0, 0, 0, 0⟩

/-- `struct uav_data` from `main_remote.cpp` (identical in `main.cpp` as
`id_data`).  `double` fields are modelled as `Int` (they are only copied). -/
structure UavData where
  mac : Mac
  rssi : Int
  last_seen : Nat
  op_id : String
  uav_id : String
  lat_d : Int
  long_d : Int
  base_lat_d : Int
  base_long_d : Int
  altitude_msl : Int
  height_agl : Int
  speed : Int
  heading : Int
  flag : Int
deriving DecidableEq, Repr

/-- The zeroed record produced by `memset(&UAV, 0, sizeof(UAV))`. -/
def zeroUav : UavData :=
  { mac := zeroMac, rssi := 0, last_seen := 0, op_id := "", uav_id := "",
    lat_d := 0, long_d := 0, base_lat_d := 0, base_long_d := 0,
    altitude_msl := 0, height_agl := 0, speed := 0, heading := 0, flag := 0 }

/-- `MAX_UAVS` from the detector sources. -/
def MAX_UAVS : Nat := 8

/-- Slot index returned by `next_uav` of the node-mode variants
(`node-mode-c5/src/main_remote.cpp` lines 130–148,
`node-mode-dualcore/src/main_remote.cpp` lines 97–118): first a scan for a
matching `mac` (`memcmp` over all 6 bytes), then a scan for an empty slot
(tested as `uavs[i].mac[0] == 0`, the first byte only), then the
oldest-`last_seen` eviction scan. -/
def next_uav (uavs : List UavData) (mac : Mac) : Nat :=
  match scanFind (fun u => decide (u.mac = mac)) uavs with
  | some i => i
  | none =>
    match scanFind (fun u => decide (u.mac.b0 = 0)) uavs with
    | some i => i
    | none => oldestIdx (uavs.map (fun u => u.last_seen))

/-- Slot index returned by `next_uav` of `remoteid-mesh-dualcore-c5/src/main.cpp`
(lines 107–117): same two scans, but when no slot matches and none is empty it
returns `&uavs[0]` unconditionally — there is no oldest-wins scan. -/
def next_uav_rm (uavs : List UavData) (mac : Mac) : Nat :=
  match scanFind (fun u => decide (u.mac = mac)) uavs with
  | some i => i
  | none =>
    match scanFind (fun u => decide (u.mac.b0 = 0)) uavs with
    | some i => i
    | none => 0

/-! ## Frame decoder interface (opendroneid library boundary) -/

/-- Size in bytes of every encoded opendroneid single message
(`sizeof(ODID_BasicID_encoded)` = `sizeof(ODID_Location_encoded)` =
`sizeof(ODID_System_encoded)` = `sizeof(ODID_OperatorID_encoded)` = 25). -/
def ODID_MESSAGE_SIZE : Nat := 25

/-- Decoded `ODID_Location_data` fields used by the handlers. -/
structure LocData where
  lat : Int
  long : Int
  altGeo : Int
  height : Int
  speedH : Int
  direction : Int
deriving DecidableEq, Repr

/-- Decoded `ODID_System_data` fields used by the handlers. -/
structure SysData where
  opLat : Int
  opLong : Int
deriving DecidableEq, Repr

/-- Abstract interface to the opendroneid single-message decoders (the library
is external to the repository; the handlers only forward selected fields of
its outputs). -/
structure DecodeEnv where
  decodeBasicId : List Nat → String
  decodeLocation : List Nat → LocData
  decodeSystem : List Nat → SysData
  decodeOperatorId : List Nat → String

/-- Indeterminate contents of the stack locals `basic`, `loc`, `sys`, `op` of
the BLE handler: when the `msgLen >= sizeof(...)` guard fails, the decode call
is skipped but the subsequent field copies still read these locals, which the
C code never initialised. -/
structure UninitLocals where
  basicUasId : String
  loc : LocData
  sys : SysData
  opId : String

/-- High nibble of the first message byte, the fragment classifier
(`msg[0] & 0xF0`). -/
def msgNibble (msg : List Nat) : Nat := (msg.headD 0) &&& 0xF0

/-! ## BLE scan-result handler (node-mode-c5 `DroneIDCallback::onResult`) -/

/-- The unconditional slot update performed before the message switch:
`UAV->last_seen = millis(); UAV->rssi = ...; UAV->flag = 1;
memcpy(UAV->mac, mac, 6);`. -/
def bleTouch (u : UavData) (mac : Mac) (rssi : Int) (now : Nat) : UavData :=
  { u with last_seen := u32 now, rssi := rssi, flag := 1, mac := mac }

/-- The `switch (msg[0] & 0xF0)` body of `DroneIDCallback::onResult`
(`node-mode-c5/src/main_remote.cpp` lines 182–217).  In every case the decode
call is guarded by `msgLen >= sizeof(...)` but the copies into the record are
not: an undersized message copies the indeterminate local instead. -/
def bleApplyMsg (env : DecodeEnv) (junk : UninitLocals) (u : UavData)
    (msg : List Nat) : UavData :=
  if msgNibble msg = 0x00 then
    { u with uav_id :=
        if ODID_MESSAGE_SIZE ≤ msg.length then env.decodeBasicId msg
        else junk.basicUasId }
  else if msgNibble msg = 0x10 then
    let loc := if ODID_MESSAGE_SIZE ≤ msg.length then env.decodeLocation msg
               else junk.loc
    { u with lat_d := loc.lat, long_d := loc.long,
             altitude_msl := loc.altGeo, height_agl := loc.height,
             speed := loc.speedH, heading := loc.direction }
  else if msgNibble msg = 0x40 then
    let sys := if ODID_MESSAGE_SIZE ≤ msg.length then env.decodeSystem msg
               else junk.sys
    { u with base_lat_d := sys.opLat, base_long_d := sys.opLong }
  else if msgNibble msg = 0x50 then
    { u with op_id :=
        if ODID_MESSAGE_SIZE ≤ msg.length then env.decodeOperatorId msg
        else junk.opId }
  else u

/-- Input of one BLE scan callback invocation: whether the device carries
service data for UUID 0xFFFA, the service-data bytes, the advertiser address,
RSSI, and the `millis()` reading. -/
structure BleInput where
  hasServiceData : Bool
  svcData : List Nat
  mac : Mac
  rssi : Int
  now : Nat

/-- `DroneIDCallback::onResult` of `node-mode-c5/src/main_remote.cpp`
(lines 155–222), as a function from the tracking table and one advertisement
to the new table and the snapshot offered to the print queue (`none` when the
callback returns before the `xQueueSend`). -/
def bleOnResult (env : DecodeEnv) (junk : UninitLocals) (uavs : List UavData)
    (inp : BleInput) : List UavData × Option UavData :=
  if !inp.hasServiceData then (uavs, none)
  else if inp.svcData.length < 2 then (uavs, none)
  else if inp.svcData.length < 3 then (uavs, none)
  else
    let i := next_uav uavs inp.mac
    let u1 := bleTouch (uavs.getD i zeroUav) inp.mac inp.rssi inp.now
    let msg := inp.svcData.drop 1
    if msg.length < 1 then (uavs.set i u1, none)
    else
      let u2 := bleApplyMsg env junk u1 msg
      (uavs.set i u2, some u2)

/-! ## WiFi NAN action-frame store path (node-mode-c5 `wifiCallback`) -/

/-- Decoded `ODID_UAS_Data` message pack as filled by
`odid_wifi_receive_message_pack_nan_action_frame` /
`odid_message_process_pack` (library boundary): per-section validity flags and
the fields the callback copies. -/
structure UasData where
  basicIdValid : Bool
  basicId : String
  locationValid : Bool
  location : LocData
  systemValid : Bool
  system : SysData
  operatorIdValid : Bool
  operatorId : String

/-- The record built from a decoded pack: `memset(&UAV, 0, sizeof(UAV))`
followed by the `mac`/`rssi`/`last_seen` writes and the four
validity-guarded section copies (`node-mode-c5/src/main_remote.cpp`
lines 239–260; the beacon branch, lines 290–311, builds the same record). -/
def packToUav (mac : Mac) (rssi : Int) (now : Nat) (d : UasData) : UavData :=
  let v0 := { zeroUav with mac := mac, rssi := rssi, last_seen := u32 now }
  let v1 := if d.basicIdValid then { v0 with uav_id := d.basicId } else v0
  let v2 := if d.locationValid then
      { v1 with lat_d := d.location.lat, long_d := d.location.long,
                altitude_msl := d.location.altGeo,
                height_agl := d.location.height,
                speed := d.location.speedH,
                heading := d.location.direction }
    else v1
  let v3 := if d.systemValid then
      { v2 with base_lat_d := d.system.opLat, base_long_d := d.system.opLong }
    else v2
  if d.operatorIdValid then { v3 with op_id := d.operatorId } else v3

/-- The store-and-enqueue tail of the NAN branch of `wifiCallback`
(lines 262–269): `uav_data* stored = next_uav(UAV.mac); *stored = UAV;
stored->flag = 1;` then the whole slot is offered to the queue.  Note the
wholesale `*stored = UAV` assignment: the slot is replaced, not merged. -/
def wifiStorePack (uavs : List UavData) (mac : Mac) (rssi : Int) (now : Nat)
    (d : UasData) : List UavData × Option UavData :=
  let UAV := packToUav mac rssi now d
  let i := next_uav uavs mac
  let stored := { UAV with flag := 1 }
  (uavs.set i stored, some stored)

/-! ## Capture-to-output print queue -/

/-- Modelled from the spec: the print queue is a FreeRTOS queue created by
`xQueueCreate(MAX_UAVS * 2, sizeof(uav_data))` and written with
`xQueueSend(printQueue, &tmp, 0)` — the FreeRTOS implementation is not part
of the repository, so its documented drop-on-full, zero-wait semantics for a
zero tick timeout are modelled here: if the queue holds fewer than `cap`
items the item is appended at the tail, otherwise the queue is unchanged. -/
def queueSend (cap : Nat) (q : List α) (x : α) : List α :=
  if q.length < cap then q ++ [x] else q

/-- Capacity passed to `xQueueCreate` in `setup()`
(`node-mode-c5/src/main_remote.cpp` line 462). -/
def printQueueCap : Nat := MAX_UAVS * 2

/-! ## Dual-band channel-hop scheduler (node-mode-c5) -/

/-- `channels_24g` (fixed priority order). -/
def channels_24g : List Nat := [1, 6, 11, 2, 3, 4, 5, 7, 8, 9, 10, 12, 13]

/-- `channels_5g` (ascending). -/
def channels_5g : List Nat :=
  [36, 40, 44, 48, 52, 56, 60, 64, 100, 104, 108, 112, 116, 120, 124, 128,
   132, 136, 140, 144, 149, 153, 157, 161, 165]

/-- `NUM_24G_CH`. -/
def NUM_24G_CH : Nat := channels_24g.length

/-- `NUM_5G_CH`. -/
def NUM_5G_CH : Nat := channels_5g.length

/-- `HOP_INTERVAL_MS` of `node-mode-c5/src/main_remote.cpp`. -/
def HOP_INTERVAL_MS : Nat := 100

/-- Scheduler state: `chanIdx24`, `chanIdx5`, `on5GHz`, `lastHop`. -/
structure HopState where
  chanIdx24 : Nat
  chanIdx5 : Nat
  on5GHz : Bool
  lastHop : Nat
deriving DecidableEq, Repr

/-- `hopChannel()` (`node-mode-c5/src/main_remote.cpp` lines 115–125): tunes
the radio to the current band's channel at its cursor, advances that cursor
modulo its list length, and toggles the band flag.  Returns the new state and
the channel passed to `esp_wifi_set_channel`. -/
def hopChannel (s : HopState) : HopState × Nat :=
  if s.on5GHz then
    ({ s with chanIdx5 := (s.chanIdx5 + 1) % NUM_5G_CH, on5GHz := false },
     channels_5g.getD s.chanIdx5 0)
  else
    ({ s with chanIdx24 := (s.chanIdx24 + 1) % NUM_24G_CH, on5GHz := true },
     channels_24g.getD s.chanIdx24 0)

/-- The channel-hopping step of `loop()` (lines 478–485):
`if (now - lastHop >= HOP_INTERVAL_MS) { hopChannel(); lastHop = now; }`
(32-bit unsigned arithmetic on `millis()` values). -/
def loopHop (s : HopState) (now : Nat) : HopState :=
  if HOP_INTERVAL_MS ≤ u32sub (u32 now) (u32 s.lastHop) then
    { (hopChannel s).1 with lastHop := u32 now }
  else s

/-! ## Head-end mesh dedup engine (main_home.cpp, both variants identical) -/

/-- `DEDUP_MAX_DRONES`. -/
def DEDUP_MAX_DRONES : Nat := 16

/-- `DEDUP_WINDOW_MS`. -/
def DEDUP_WINDOW_MS : Nat := 500

/-- `DEDUP_STALE_MS`. -/
def DEDUP_STALE_MS : Nat := 30000

/-- `struct dedup_entry`.  The `mac` key is the extracted textual MAC. -/
structure DedupEntry where
  mac : String
  windowStart : Nat
  lastSeen : Nat
  active : Bool
  firstNodeId : String
  dupsBlocked : Nat
deriving DecidableEq, Repr

/-- The all-zero entry produced by `memset`. -/
def zeroEntry : DedupEntry :=
  { mac := "", windowStart := 0, lastSeen := 0, active := false,
    firstNodeId := "", dupsBlocked := 0 }

/-- `dedupInit()`: the whole table zeroed. -/
def dedupInit : List DedupEntry := List.replicate DEDUP_MAX_DRONES zeroEntry

/-- `dedupFind(mac)`: index of the first active entry with this MAC. -/
def dedupFind (tbl : List DedupEntry) (mac : String) : Option Nat :=
  scanFind (fun e => e.active && (e.mac == mac)) tbl

/-- The fresh entry written by `dedupAlloc`: `memset(&e, 0, sizeof(e));
strncpy(e.mac, mac, ...); e.active = true;`. -/
def freshEntry (mac : String) : DedupEntry :=
  { zeroEntry with mac := mac, active := true }

/-- `dedupAlloc(mac)` (`main_home.cpp`): claim the first inactive slot; if none
exists, evict the slot with the smallest `lastSeen` (the same
`UINT32_MAX`-initialised scan as the detector's eviction loop).  Returns the
updated table and the claimed index. -/
def dedupAlloc (tbl : List DedupEntry) (mac : String) :
    List DedupEntry × Nat :=
  match scanFind (fun e => !e.active) tbl with
  | some i => (tbl.set i (freshEntry mac), i)
  | none =>
    let i := oldestIdx (tbl.map (fun e => e.lastSeen))
    (tbl.set i (freshEntry mac), i)

/-- `dedupCleanStale(now)`: deactivate every active entry with
`now - lastSeen > DEDUP_STALE_MS` (32-bit unsigned arithmetic). -/
def dedupCleanStale (tbl : List DedupEntry) (now : Nat) : List DedupEntry :=
  tbl.map (fun e =>
    if e.active && decide (DEDUP_STALE_MS < u32sub (u32 now) e.lastSeen) then
      { e with active := false }
    else e)

/-- Head-end statistics counters (`uint32_t`). -/
structure Stats where
  msgReceived : Nat
  msgForwarded : Nat
  msgSuppressed : Nat
  msgNonJson : Nat
deriving DecidableEq, Repr

/-- All-zero statistics at boot. -/
def zeroStats : Stats :=
  { msgReceived := 0, msgForwarded := 0, msgSuppressed := 0, msgNonJson := 0 }

/-- The part of a recognized record that the dedup engine reads: the result of
`extractJsonString(line, "mac", ...)` (`none` when it returned 0) and of
`extractJsonString(line, "node_id", ...)`. -/
structure RecIn where
  mac : Option String
  nodeId : String

/-- `processJsonLine` (`node-mode-c5/src/main_home.cpp` lines 190–236,
`node-mode-dualcore/src/main_home.cpp` lines 212–266): returns the new table,
the new statistics, and whether the line was forwarded verbatim to the local
output (`Serial.println(line)`). -/
def processJsonLine (tbl : List DedupEntry) (st : Stats) (now : Nat)
    (rec : RecIn) : List DedupEntry × Stats × Bool :=
  match rec.mac with
  | none => (tbl, { st with msgForwarded := u32 (st.msgForwarded + 1) }, true)
  | some mac =>
    let st := { st with msgReceived := u32 (st.msgReceived + 1) }
    match dedupFind tbl mac with
    | none =>
      let (tbl1, i) := dedupAlloc tbl mac
      let e := tbl1.getD i zeroEntry
      let e := { e with windowStart := u32 now, lastSeen := u32 now,
                        dupsBlocked := 0, firstNodeId := rec.nodeId }
      (tbl1.set i e,
       { st with msgForwarded := u32 (st.msgForwarded + 1) }, true)
    | some i =>
      let e0 := tbl.getD i zeroEntry
      let e1 := { e0 with lastSeen := u32 now }
      if DEDUP_WINDOW_MS ≤ u32sub (u32 now) e1.windowStart then
        let e2 := { e1 with windowStart := u32 now, dupsBlocked := 0,
                            firstNodeId := rec.nodeId }
        (tbl.set i e2,
         { st with msgForwarded := u32 (st.msgForwarded + 1) }, true)
      else
        (tbl.set i { e1 with dupsBlocked := u8 (e1.dupsBlocked + 1) },
         { st with msgSuppressed := u32 (st.msgSuppressed + 1) }, false)

/-- Whitespace test of `looksLikeJSON` (space or tab). -/
def isWs (c : Char) : Bool := c = ' ' || c = '\t'

/-- `looksLikeJSON(line, len)`: after trimming leading and trailing spaces and
tabs, the line must start with a brace and end with a closing brace.  (When
everything is whitespace the C loop leaves `start >= len` and returns false;
when only one non-whitespace character remains, `start == end` and both brace
tests are applied to it, which cannot both succeed — the model below agrees
because the first character of `t1` is not whitespace, so `t2` is `t1` minus
trailing whitespace and is nonempty exactly when `t1` is.) -/
def looksLikeJSON (line : List Char) : Bool :=
  if line.length < 2 then false
  else
    let t1 := line.dropWhile isWs
    if t1.isEmpty then false
    else
      let t2 := (t1.reverse.dropWhile isWs).reverse
      (t2.headD ' ' = '{' && t2.getLastD ' ' = '}')

/-- What a head-end line turns into on the USB serial output. -/
inductive Emit where
  | verbatim
  | meshPrefixed
  | silent
deriving DecidableEq, Repr

/-- `processLine` (`main_home.cpp`): empty lines are dropped; brace-delimited
lines go through the dedup engine; everything else is echoed with a
`[MESH] ` prefix and counted as non-JSON.  `extract` abstracts the
out-of-scope `extractJsonString` key-value extraction, returning the
`mac` and `node_id` extraction results. -/
def processLine (extract : List Char → Option String × String)
    (tbl : List DedupEntry) (st : Stats) (now : Nat) (line : List Char) :
    List DedupEntry × Stats × Emit :=
  if line.length = 0 then (tbl, st, Emit.silent)
  else if looksLikeJSON line then
    let r := extract line
    let out := processJsonLine tbl st now ⟨r.1, r.2⟩
    (out.1, out.2.1, if out.2.2 then Emit.verbatim else Emit.silent)
  else
    (tbl, { st with msgNonJson := u32 (st.msgNonJson + 1) }, Emit.meshPrefixed)

/-! ## Head-end event sequences (for the table invariant) -/

/-- One head-end event: either a recognized record arriving at time `t`
(already reduced to its extraction results) or a stale sweep at time `t`. -/
inductive HeEvent where
  | arrival (mac : Option String) (nodeId : String) (t : Nat)
  | sweep (t : Nat)

/-- Timestamp of an event. -/
def HeEvent.time : HeEvent → Nat
  | .arrival _ _ t => t
  | .sweep t => t

/-- Effect of one event on the dedup table and statistics. -/
def heStep (s : List DedupEntry × Stats) (ev : HeEvent) :
    List DedupEntry × Stats :=
  match ev with
  | .arrival mac nid t =>
    let out := processJsonLine s.1 s.2 t ⟨mac, nid⟩
    (out.1, out.2.1)
  | .sweep t => (dedupCleanStale s.1 t, s.2)

/-- Run a sequence of head-end events. -/
def runEvents (s : List DedupEntry × Stats) (evs : List HeEvent) :
    List DedupEntry × Stats :=
  evs.foldl heStep s

/-! ## Per-record BLE fragment sequences (for merge correctness) -/

/-- One BLE-delivered fragment for a fixed drone: the decoded message bytes
(counter already stripped), the advertiser address, RSSI and timestamp. -/
structure BleEv where
  msg : List Nat
  mac : Mac
  rssi : Int
  now : Nat

/-- Effect of one BLE fragment on the drone's tracking record: the
unconditional `bleTouch` followed by the message switch (the record-level
body of `DroneIDCallback::onResult` once the slot has been selected). -/
def bleRecStep (env : DecodeEnv) (junk : UninitLocals) (u : UavData)
    (ev : BleEv) : UavData :=
  let u1 := bleTouch u ev.mac ev.rssi ev.now
  if ev.msg.length < 1 then u1 else bleApplyMsg env junk u1 ev.msg

/-- Value of the most recent element carrying a value under `g`, starting
from `init` (the merge-correctness specification function). -/
def lastCarried (g : β → Option α) : α → List β → α
  | init, [] => init
  | init, ev :: rest => lastCarried g ((g ev).getD init) rest

/-- The `uav_id` value carried by a fragment: only a well-sized Basic ID
message carries one. -/
def carriesBasic (env : DecodeEnv) (ev : BleEv) : Option String :=
  if msgNibble ev.msg = 0x00 ∧ ODID_MESSAGE_SIZE ≤ ev.msg.length then
    some (env.decodeBasicId ev.msg)
  else none

/-- The position/kinematics bundle carried by a well-sized Location message. -/
def carriesLoc (env : DecodeEnv) (ev : BleEv) : Option LocData :=
  if msgNibble ev.msg = 0x10 ∧ ODID_MESSAGE_SIZE ≤ ev.msg.length then
    some (env.decodeLocation ev.msg)
  else none

/-- The operator position carried by a well-sized System message. -/
def carriesSys (env : DecodeEnv) (ev : BleEv) : Option SysData :=
  if msgNibble ev.msg = 0x40 ∧ ODID_MESSAGE_SIZE ≤ ev.msg.length then
    some (env.decodeSystem ev.msg)
  else none

/-- The `op_id` value carried by a well-sized Operator ID message. -/
def carriesOp (env : DecodeEnv) (ev : BleEv) : Option String :=
  if msgNibble ev.msg = 0x50 ∧ ODID_MESSAGE_SIZE ≤ ev.msg.length then
    some (env.decodeOperatorId ev.msg)
  else none

/-- Location bundle currently stored in a record. -/
def locOf (u : UavData) : LocData :=
  ⟨u.lat_d, u.long_d, u.altitude_msl, u.height_agl, u.speed, u.heading⟩

/-- Operator position currently stored in a record. -/
def sysOf (u : UavData) : SysData := ⟨u.base_lat_d, u.base_long_d⟩

/-- Merge correctness of a BLE fragment sequence applied to one record: every
field equals the value carried by the most recent fragment that carried it,
with the starting record's value as default; `mac`, `rssi`, `last_seen` and
`flag` are carried by every fragment. -/
def MergeOk (env : DecodeEnv) (junk : UninitLocals) (u : UavData)
    (l : List BleEv) : Prop :=
  let r := l.foldl (bleRecStep env junk) u
  r.uav_id = lastCarried (carriesBasic env) u.uav_id l ∧
  r.op_id = lastCarried (carriesOp env) u.op_id l ∧
  locOf r = lastCarried (carriesLoc env) (locOf u) l ∧
  sysOf r = lastCarried (carriesSys env) (sysOf u) l ∧
  r.mac = lastCarried (fun ev => some ev.mac) u.mac l ∧
  r.rssi = lastCarried (fun ev => some ev.rssi) u.rssi l ∧
  r.last_seen = lastCarried (fun ev => some (u32 ev.now)) u.last_seen l ∧
  r.flag = lastCarried (fun _ => some 1) u.flag l

/-! ## Concrete fixtures for counterexamples and witnesses -/

/-- A concrete decode environment (constant decoders). -/
def env0 : DecodeEnv :=
  { decodeBasicId := fun _ => "BID",
    decodeLocation := fun _ => ⟨471, -1223, 100, 10, 5, 90⟩,
    decodeSystem := fun _ => ⟨400, -300⟩,
    decodeOperatorId := fun _ => "OP1" }

/-- Concrete indeterminate stack contents. -/
def junk0 : UninitLocals :=
  { basicUasId := "JB", loc := ⟨91, 92, 93, 94, 95, 96⟩, sys := ⟨97, 98⟩,
    opId := "JO" }

/-- A concrete drone address with a nonzero first byte. -/
def mac1 : Mac := ⟨1, 2, 3, 4, 5, 6⟩

/-- A concrete drone address not present in any fixture table. -/
def macX : Mac := ⟨9, 9, 9, 9, 9, 9⟩

/-- Fixture record: nonzero first MAC byte `b0`, `last_seen` `ls`,
operator id `op`. -/
def mkUav (b0 ls : Nat) (op : String) : UavData :=
  { zeroUav with mac := ⟨b0, 0, 0, 0, 0, 0⟩, last_seen := ls, op_id := op }

/-- A well-sized Basic ID BLE fragment from `mac1`. -/
def bleEv1 : BleEv := ⟨0x00 :: List.replicate 24 0, mac1, -40, 1000⟩

/-- Selection behaviour of the two `next_uav` variants on a full table with
no matching MAC: the node-mode variants pick the slot with the smallest
`last_seen`, ties broken by the lowest index; the `remoteid-mesh-dualcore-c5`
variant picks slot 0 unconditionally. -/
def EvictSel (uavs : List UavData) (m : Mac) : Prop :=
  next_uav uavs m < uavs.length ∧
  (∀ k, k < uavs.length →
    (uavs.getD (next_uav uavs m) zeroUav).last_seen ≤
      (uavs.getD k zeroUav).last_seen) ∧
  (∀ k, k < next_uav uavs m →
    (uavs.getD (next_uav uavs m) zeroUav).last_seen <
      (uavs.getD k zeroUav).last_seen) ∧
  next_uav_rm uavs m = 0

/-- Empty-slot selection as the code implements it: the slot claimed on a
miss is the first slot whose FIRST mac byte is zero. -/
def FirstB0Sel (uavs : List UavData) (m : Mac) : Prop :=
  next_uav uavs m < uavs.length ∧
  (uavs.getD (next_uav uavs m) zeroUav).mac.b0 = 0 ∧
  (∀ k, k < next_uav uavs m → (uavs.getD k zeroUav).mac.b0 ≠ 0) ∧
  next_uav_rm uavs m = next_uav uavs m

/-- Fixture: a live drone record whose MAC begins with byte `0x00` but is not
the all-zero sentinel. -/
def liveUav : UavData :=
  { zeroUav with mac := ⟨0, 17, 34, 51, 68, 85⟩, op_id := "LIVE", last_seen := 100 }

/-- Fixture table for the C6 counterexample: slot 0 is `liveUav`, slots 1–7
hold other drones with nonzero first MAC bytes. -/
def tblC6 : List UavData :=
  [liveUav, mkUav 2 40 "", mkUav 3 41 "", mkUav 4 42 "",
   mkUav 5 43 "", mkUav 6 44 "", mkUav 7 45 "", mkUav 8 46 ""]

/-- Fixture table for C4: slot 0 tracks `mac1` with a previously decoded
latitude of 7. -/
def tblC4 : List UavData :=
  { zeroUav with mac := mac1, lat_d := 7 } :: List.replicate 7 zeroUav

/-- Fixture input for C4: a BLE advertisement whose service data is 3 bytes —
counter `0x0D` plus a 2-byte message with Location high nibble `0x1` — far
shorter than the 25-byte encoded Location message. -/
def inpC4 : BleInput := ⟨true, [0x0D, 0x12, 0x34], mac1, -40, 999⟩

/-- `MyAdvertisedDeviceCallbacks::onResult` of
`remoteid-mesh-dualcore-c5/src/main.cpp` (lines 124–182): single
`length < 3` guard, `flag` set after the switch, slot selected with the
fallback-to-0 `next_uav`, snapshot offered with `xQueueSend(..., 0)`. -/
def bleOnResultRM (env : DecodeEnv) (junk : UninitLocals)
    (uavs : List UavData) (inp : BleInput) : List UavData × Option UavData :=
  if !inp.hasServiceData then (uavs, none)
  else if inp.svcData.length < 3 then (uavs, none)
  else
    let i := next_uav_rm uavs inp.mac
    let u1 := { uavs.getD i zeroUav with
                  last_seen := u32 inp.now, rssi := inp.rssi, mac := inp.mac }
    let msg := inp.svcData.drop 1
    if msg.length < 1 then (uavs.set i u1, none)
    else
      let u2 := { bleApplyMsg env junk u1 msg with flag := 1 }
      (uavs.set i u2, some u2)

/-- Effect of a BLE advertisement whose message type is unrecognized: in both
handler variants the selected slot is still updated with `mac`, `rssi`,
`last_seen` and `flag`, and exactly that slot snapshot is still offered to
the print queue. -/
def UnknownTypeOk (env : DecodeEnv) (junk : UninitLocals)
    (tbl : List UavData) (inp : BleInput) : Prop :=
  (bleOnResult env junk tbl inp =
    (tbl.set (next_uav tbl inp.mac)
      (bleTouch (tbl.getD (next_uav tbl inp.mac) zeroUav)
        inp.mac inp.rssi inp.now),
     some (bleTouch (tbl.getD (next_uav tbl inp.mac) zeroUav)
        inp.mac inp.rssi inp.now))) ∧
  (bleOnResultRM env junk tbl inp =
    (tbl.set (next_uav_rm tbl inp.mac)
      (bleTouch (tbl.getD (next_uav_rm tbl inp.mac) zeroUav)
        inp.mac inp.rssi inp.now),
     some (bleTouch (tbl.getD (next_uav_rm tbl inp.mac) zeroUav)
        inp.mac inp.rssi inp.now)))

/-- Per-entry invariant relative to a time bound `T`: an active entry's
window start never exceeds its `lastSeen`, which never exceeds `T`. -/
def EntryOk (T : Nat) (e : DedupEntry) : Prop :=
  e.active = true → e.windowStart ≤ e.lastSeen ∧ e.lastSeen ≤ T

/-- Table invariant: every entry satisfies `EntryOk T` and active entries
have pairwise distinct MACs. -/
def DedupInv (tbl : List DedupEntry) (T : Nat) : Prop :=
  (∀ i, i < tbl.length → EntryOk T (tbl.getD i zeroEntry)) ∧
  (∀ i j, i < tbl.length → j < tbl.length → i ≠ j →
    (tbl.getD i zeroEntry).active = true →
    (tbl.getD j zeroEntry).active = true →
    (tbl.getD i zeroEntry).mac ≠ (tbl.getD j zeroEntry).mac)

/-- The claim's invariant, with the auxiliary time bound dropped:
`lastSeen >= windowStart` for every active entry, and at most one active
entry per MAC. -/
def DedupClaim (tbl : List DedupEntry) : Prop :=
  (∀ i, i < tbl.length → (tbl.getD i zeroEntry).active = true →
    (tbl.getD i zeroEntry).windowStart ≤ (tbl.getD i zeroEntry).lastSeen) ∧
  (∀ i j, i < tbl.length → j < tbl.length → i ≠ j →
    (tbl.getD i zeroEntry).active = true →
    (tbl.getD j zeroEntry).active = true →
    (tbl.getD i zeroEntry).mac ≠ (tbl.getD j zeroEntry).mac)

/-- The entry stored by the allocation path of `processJsonLine`. -/
def openedEntry (m nid : String) (t : Nat) : DedupEntry :=
  { mac := m, windowStart := u32 t, lastSeen := u32 t, active := true,
    firstNodeId := nid, dupsBlocked := 0 }

/-! ## List helper lemmas -/

theorem getD_set_eq (l : List α) (i : Nat) (x d : α) (h : i < l.length) :
    (l.set i x).getD i d = x := by
  induction l generalizing i with
  | nil => simp at h
  | cons a rest ih =>
    cases i with
    | zero => rfl
    | succ j =>
      simp only [List.set, List.getD, List.get?]
      exact ih j (by simpa using h)

theorem getD_set_ne (l : List α) (i j : Nat) (x d : α) (h : j ≠ i) :
    (l.set i x).getD j d = l.getD j d := by
  induction l generalizing i j with
  | nil => simp [List.set]
  | cons a rest ih =>
    cases i with
    | zero =>
      cases j with
      | zero => exact absurd rfl h
      | succ k => rfl
    | succ i2 =>
      cases j with
      | zero => rfl
      | succ k =>
        simp only [List.set, List.getD, List.get?]
        exact ih i2 k (fun hk => h (by omega))

theorem getD_map (f : α → β) (l : List α) (i : Nat) (d : α) (e : β)
    (h : i < l.length) : (l.map f).getD i e = f (l.getD i d) := by
  induction l generalizing i with
  | nil => simp at h
  | cons a rest ih =>
    cases i with
    | zero => rfl
    | succ j =>
      simp only [List.map, List.getD, List.get?]
      exact ih j (by simpa using h)

/-! ## Characterization of the linear scans -/

theorem scanFind_some (p : α → Bool) (l : List α) (i : Nat) (d : α)
    (h : scanFind p l = some i) :
    i < l.length ∧ p (l.getD i d) = true ∧
      ∀ j, j < i → p (l.getD j d) = false := by
  induction l generalizing i with
  | nil => simp [scanFind] at h
  | cons a rest ih =>
    by_cases ha : p a
    · simp [scanFind, ha] at h
      subst h
      exact ⟨by simp, ha, fun j hj => by omega⟩
    · simp [scanFind, ha] at h
      obtain ⟨k, hk, rfl⟩ := h
      obtain ⟨h1, h2, h3⟩ := ih k hk
      refine ⟨by simpa using Nat.succ_lt_succ h1, h2, ?_⟩
      intro j hj
      cases j with
      | zero => simpa using ha
      | succ j2 =>
        simpa using h3 j2 (by omega)

theorem scanFind_none (p : α → Bool) (l : List α) (d : α)
    (h : scanFind p l = none) :
    ∀ j, j < l.length → p (l.getD j d) = false := by
  induction l with
  | nil => intro j hj; simp at hj
  | cons a rest ih =>
    by_cases ha : p a
    · simp [scanFind, ha] at h
    · simp [scanFind, ha] at h
      intro j hj
      cases j with
      | zero => simpa using ha
      | succ j2 =>
        simpa using ih h j2 (by simpa using hj)

theorem oldestScan_spec (l : List Nat) :
    ∀ i bi bt,
      (oldestScan l i bi bt = bi ∧ ∀ k, k < l.length → bt ≤ l.getD k 0) ∨
      (∃ k, k < l.length ∧ oldestScan l i bi bt = i + k ∧
        l.getD k 0 < bt ∧
        (∀ m, m < l.length → l.getD k 0 ≤ l.getD m 0) ∧
        (∀ m, m < k → l.getD k 0 < l.getD m 0)) := by
  induction l with
  | nil =>
    intro i bi bt
    left
    exact ⟨rfl, fun k hk => by simp at hk⟩
  | cons t rest ih =>
    intro i bi bt
    by_cases hlt : t < bt
    · have hunf : oldestScan (t :: rest) i bi bt = oldestScan rest (i + 1) i t := by
        simp [oldestScan, hlt]
      rcases ih (i + 1) i t with ⟨heq, hall⟩ | ⟨k, hk, heq, hval, hmin, hstrict⟩
      · right
        refine ⟨0, by simp, by rw [hunf, heq]; omega, by simpa using hlt, ?_, ?_⟩
        · intro m hm
          cases m with
          | zero => simp
          | succ m2 =>
            have h1 : t ≤ rest.getD m2 0 := hall m2 (by simpa using hm)
            simpa using h1
        · intro m hm; omega
      · right
        refine ⟨k + 1, by simpa using Nat.succ_lt_succ hk,
          by rw [hunf, heq]; omega, ?_, ?_, ?_⟩
        · show rest.getD k 0 < bt
          exact lt_trans hval hlt
        · intro m hm
          cases m with
          | zero =>
            show rest.getD k 0 ≤ t
            exact le_of_lt hval
          | succ m2 =>
            have h1 : rest.getD k 0 ≤ rest.getD m2 0 := hmin m2 (by simpa using hm)
            simpa using h1
        · intro m hm
          cases m with
          | zero =>
            show rest.getD k 0 < t
            exact hval
          | succ m2 =>
            have h1 : rest.getD k 0 < rest.getD m2 0 := hstrict m2 (by omega)
            simpa using h1
    · have hunf : oldestScan (t :: rest) i bi bt = oldestScan rest (i + 1) bi bt := by
        simp [oldestScan, hlt]
      have hble : bt ≤ t := Nat.le_of_not_lt hlt
      rcases ih (i + 1) bi bt with ⟨heq, hall⟩ | ⟨k, hk, heq, hval, hmin, hstrict⟩
      · left
        refine ⟨by rw [hunf, heq], ?_⟩
        intro m hm
        cases m with
        | zero => simpa using hble
        | succ m2 =>
          have h1 : bt ≤ rest.getD m2 0 := hall m2 (by simpa using hm)
          simpa using h1
      · right
        refine ⟨k + 1, by simpa using Nat.succ_lt_succ hk,
          by rw [hunf, heq]; omega, ?_, ?_, ?_⟩
        · show rest.getD k 0 < bt
          exact hval
        · intro m hm
          cases m with
          | zero =>
            show rest.getD k 0 ≤ t
            exact le_of_lt (lt_of_lt_of_le hval hble)
          | succ m2 =>
            have h1 : rest.getD k 0 ≤ rest.getD m2 0 := hmin m2 (by simpa using hm)
            simpa using h1
        · intro m hm
          cases m with
          | zero =>
            show rest.getD k 0 < t
            exact lt_of_lt_of_le hval hble
          | succ m2 =>
            have h1 : rest.getD k 0 < rest.getD m2 0 := hstrict m2 (by omega)
            simpa using h1

/-- The eviction scan selects the first index attaining the minimal value,
provided every value fits a `uint32_t`. -/
theorem oldestIdx_spec (l : List Nat) (hne : l ≠ [])
    (hbound : ∀ k, k < l.length → l.getD k 0 ≤ UINT32_MAX) :
    oldestIdx l < l.length ∧
    (∀ m, m < l.length → l.getD (oldestIdx l) 0 ≤ l.getD m 0) ∧
    (∀ m, m < oldestIdx l → l.getD (oldestIdx l) 0 < l.getD m 0) := by
  have hlen : 0 < l.length := List.length_pos.mpr hne
  rcases oldestScan_spec l 0 0 UINT32_MAX with ⟨heq, hall⟩ | ⟨k, hk, heq, _, hmin, hstrict⟩
  · have h0 : oldestIdx l = 0 := heq
    rw [h0]
    refine ⟨hlen, ?_, ?_⟩
    · intro m hm
      have h1 : l.getD 0 0 ≤ UINT32_MAX := hbound 0 hlen
      have h2 : UINT32_MAX ≤ l.getD m 0 := hall m hm
      calc l.getD 0 0 ≤ UINT32_MAX := h1
        _ ≤ l.getD m 0 := h2
    · intro m hm; omega
  · have h0 : oldestIdx l = k := by simpa using heq
    rw [h0]
    exact ⟨hk, hmin, hstrict⟩

/-- Field effect of a single well-sized BLE fragment on a record. -/
theorem bleRecStep_fields (env : DecodeEnv) (junk : UninitLocals)
    (u : UavData) (ev : BleEv) (h : ODID_MESSAGE_SIZE ≤ ev.msg.length) :
    (bleRecStep env junk u ev).uav_id = (carriesBasic env ev).getD u.uav_id ∧
    (bleRecStep env junk u ev).op_id = (carriesOp env ev).getD u.op_id ∧
    locOf (bleRecStep env junk u ev) = (carriesLoc env ev).getD (locOf u) ∧
    sysOf (bleRecStep env junk u ev) = (carriesSys env ev).getD (sysOf u) ∧
    (bleRecStep env junk u ev).mac = ev.mac ∧
    (bleRecStep env junk u ev).rssi = ev.rssi ∧
    (bleRecStep env junk u ev).last_seen = u32 ev.now ∧
    (bleRecStep env junk u ev).flag = 1 := by
  have hlen : ¬ ev.msg.length < 1 := by
    have : (25 : Nat) ≤ ev.msg.length := h
    omega
  by_cases h0 : msgNibble ev.msg = 0x00
  · simp [bleRecStep, hlen, bleApplyMsg, h0, carriesBasic, carriesOp,
      carriesLoc, carriesSys, locOf, sysOf, bleTouch, h]
  · by_cases h1 : msgNibble ev.msg = 0x10
    · simp [bleRecStep, hlen, bleApplyMsg, h0, h1, carriesBasic, carriesOp,
        carriesLoc, carriesSys, locOf, sysOf, bleTouch, h]
    · by_cases h4 : msgNibble ev.msg = 0x40
      · simp [bleRecStep, hlen, bleApplyMsg, h0, h1, h4, carriesBasic,
          carriesOp, carriesLoc, carriesSys, locOf, sysOf, bleTouch, h]
      · by_cases h5 : msgNibble ev.msg = 0x50
        · simp [bleRecStep, hlen, bleApplyMsg, h0, h1, h4, h5, carriesBasic,
            carriesOp, carriesLoc, carriesSys, locOf, sysOf, bleTouch, h]
        · simp [bleRecStep, hlen, bleApplyMsg, h0, h1, h4, h5, carriesBasic,
            carriesOp, carriesLoc, carriesSys, locOf, sysOf, bleTouch, h]

/-- C1 (amended, proved part): merge correctness for BLE-delivered sequences. -/
theorem mergeOk_of_sized (env : DecodeEnv) (junk : UninitLocals)
    (u : UavData) (l : List BleEv)
    (h : ∀ ev ∈ l, ODID_MESSAGE_SIZE ≤ ev.msg.length) :
    MergeOk env junk u l := by
  induction l generalizing u with
  | nil =>
    exact ⟨rfl, rfl, rfl, rfl, rfl, rfl, rfl, rfl⟩
  | cons e rest ih =>
    have he : ODID_MESSAGE_SIZE ≤ e.msg.length := h e (by simp)
    have hrest : ∀ ev ∈ rest, ODID_MESSAGE_SIZE ≤ ev.msg.length :=
      fun ev hev => h ev (by simp [hev])
    obtain ⟨f1, f2, f3, f4, f5, f6, f7, f8⟩ :=
      bleRecStep_fields env junk u e he
    obtain ⟨g1, g2, g3, g4, g5, g6, g7, g8⟩ :=
      ih (u := bleRecStep env junk u e) hrest
    refine ⟨?_, ?_, ?_, ?_, ?_, ?_, ?_, ?_⟩
    · show (List.foldl (bleRecStep env junk) (bleRecStep env junk u e) rest).uav_id
        = lastCarried (carriesBasic env) ((carriesBasic env e).getD u.uav_id) rest
      rw [g1, f1]
    · show (List.foldl (bleRecStep env junk) (bleRecStep env junk u e) rest).op_id
        = lastCarried (carriesOp env) ((carriesOp env e).getD u.op_id) rest
      rw [g2, f2]
    · show locOf (List.foldl (bleRecStep env junk) (bleRecStep env junk u e) rest)
        = lastCarried (carriesLoc env) ((carriesLoc env e).getD (locOf u)) rest
      rw [g3, f3]
    · show sysOf (List.foldl (bleRecStep env junk) (bleRecStep env junk u e) rest)
        = lastCarried (carriesSys env) ((carriesSys env e).getD (sysOf u)) rest
      rw [g4, f4]
    · show (List.foldl (bleRecStep env junk) (bleRecStep env junk u e) rest).mac
        = lastCarried (fun ev => some ev.mac) ((some e.mac).getD u.mac) rest
      rw [g5, f5]
      rfl
    · show (List.foldl (bleRecStep env junk) (bleRecStep env junk u e) rest).rssi
        = lastCarried (fun ev => some ev.rssi) ((some e.rssi).getD u.rssi) rest
      rw [g6, f6]
      rfl
    · show (List.foldl (bleRecStep env junk) (bleRecStep env junk u e) rest).last_seen
        = lastCarried (fun ev => some (u32 ev.now)) ((some (u32 e.now)).getD u.last_seen) rest
      rw [g7, f7]
      rfl
    · show (List.foldl (bleRecStep env junk) (bleRecStep env junk u e) rest).flag
        = lastCarried (fun _ => some 1) ((some (1 : Int)).getD u.flag) rest
      rw [g8, f8]
      rfl

/-! ## C5: non-blocking output queue -/

/-- C5: pushing a snapshot into the print queue (capacity
`MAX_UAVS * 2 = 16`) when it is full drops the new item and leaves the
queue's contents — values and FIFO order — exactly unchanged. -/
theorem C5_queue_full_drops (q : List UavData) (x : UavData)
    (h : q.length = printQueueCap) :
    printQueueCap = 16 ∧ queueSend printQueueCap q x = q := by
  refine ⟨rfl, ?_⟩
  simp [queueSend, h]

/-- C5 witness: a concrete full queue of 16 snapshots is unchanged by a push. -/
theorem C5_queue_full_drops_witness :
    (List.replicate 16 zeroUav).length = printQueueCap ∧
    (printQueueCap = 16 ∧
      queueSend printQueueCap (List.replicate 16 zeroUav) zeroUav =
        List.replicate 16 zeroUav) :=
  ⟨by decide, C5_queue_full_drops (List.replicate 16 zeroUav) zeroUav (by decide)⟩

/-! ## C9: channel hop scheduler -/

/-- C9: when the dwell interval has elapsed, one `loop()` pass toggles the
band flag and advances only the current band's cursor by one modulo its list
length, leaving the other band's cursor unchanged; when it has not elapsed,
the scheduler state is unchanged. -/
theorem C9_hop_scheduler (s : HopState) (now : Nat) :
    (HOP_INTERVAL_MS ≤ u32sub (u32 now) (u32 s.lastHop) →
      (loopHop s now).on5GHz = !s.on5GHz ∧
      (s.on5GHz = true →
        (loopHop s now).chanIdx5 = (s.chanIdx5 + 1) % NUM_5G_CH ∧
        (loopHop s now).chanIdx24 = s.chanIdx24) ∧
      (s.on5GHz = false →
        (loopHop s now).chanIdx24 = (s.chanIdx24 + 1) % NUM_24G_CH ∧
        (loopHop s now).chanIdx5 = s.chanIdx5) ∧
      (loopHop s now).lastHop = u32 now) ∧
    (u32sub (u32 now) (u32 s.lastHop) < HOP_INTERVAL_MS →
      loopHop s now = s) := by
  constructor
  · intro h
    cases hb : s.on5GHz <;>
      simp [loopHop, hopChannel, h, hb]
  · intro h
    have h2 : ¬ HOP_INTERVAL_MS ≤ u32sub (u32 now) (u32 s.lastHop) := by omega
    simp [loopHop, h2]

/-- C9 witness: concrete elapsed and non-elapsed invocations. -/
theorem C9_hop_scheduler_witness :
    ((HOP_INTERVAL_MS ≤ u32sub (u32 150) (u32 0)) ∧
      ((loopHop ⟨0, 0, false, 0⟩ 150).on5GHz = !(false : Bool) ∧
       ((false : Bool) = true →
         (loopHop ⟨0, 0, false, 0⟩ 150).chanIdx5 = (0 + 1) % NUM_5G_CH ∧
         (loopHop ⟨0, 0, false, 0⟩ 150).chanIdx24 = 0) ∧
       ((false : Bool) = false →
         (loopHop ⟨0, 0, false, 0⟩ 150).chanIdx24 = (0 + 1) % NUM_24G_CH ∧
         (loopHop ⟨0, 0, false, 0⟩ 150).chanIdx5 = 0) ∧
       (loopHop ⟨0, 0, false, 0⟩ 150).lastHop = u32 150)) ∧
    ((u32sub (u32 50) (u32 0) < HOP_INTERVAL_MS) ∧
      loopHop ⟨3, 4, true, 0⟩ 50 = ⟨3, 4, true, 0⟩) :=
  ⟨⟨by decide, (C9_hop_scheduler ⟨0, 0, false, 0⟩ 150).1 (by decide)⟩,
   ⟨by decide, (C9_hop_scheduler ⟨3, 4, true, 0⟩ 50).2 (by decide)⟩⟩

/-! ## C3: dedup window behaviour -/

/-- C3: with WINDOW = 500 ms, records for MAC `X` at t = 0, 100 and 600 ms
hitting an initially empty dedup table are forwarded, suppressed, forwarded
respectively; the suppressed one increments the entry's duplicate count to 1,
updates `lastSeen` to 100 and leaves `windowStart` at 0. -/
theorem C3_dedup_window :
    (processJsonLine dedupInit zeroStats 0 ⟨some "X", "A"⟩).2.2 = true ∧
    ((processJsonLine dedupInit zeroStats 0 ⟨some "X", "A"⟩).1 |> fun t1 =>
      (processJsonLine t1 zeroStats 100 ⟨some "X", "B"⟩).2.2 = false ∧
      ((processJsonLine t1 zeroStats 100 ⟨some "X", "B"⟩).1.getD 0 zeroEntry).dupsBlocked = 1 ∧
      ((processJsonLine t1 zeroStats 100 ⟨some "X", "B"⟩).1.getD 0 zeroEntry).lastSeen = 100 ∧
      ((processJsonLine t1 zeroStats 100 ⟨some "X", "B"⟩).1.getD 0 zeroEntry).windowStart = 0 ∧
      ((processJsonLine t1 zeroStats 100 ⟨some "X", "B"⟩).1 |> fun t2 =>
        (processJsonLine t2 zeroStats 600 ⟨some "X", "C"⟩).2.2 = true)) := by
  decide

/-! ## C7: dedup pass-through for MAC-less records -/

/-- C7: every brace-delimited line from which no `mac` field is extracted is
forwarded verbatim, unconditionally, with the dedup table left untouched, for
every table state. -/
theorem C7_no_mac_passthrough (extract : List Char → Option String × String)
    (tbl : List DedupEntry) (st : Stats) (now : Nat) (line : List Char)
    (hjson : looksLikeJSON line = true) (hmac : (extract line).1 = none) :
    processLine extract tbl st now line =
      (tbl, { st with msgForwarded := u32 (st.msgForwarded + 1) },
       Emit.verbatim) := by
  have hlen : ¬ line.length = 0 := by
    intro h0
    rw [looksLikeJSON] at hjson
    simp [h0] at hjson
  simp [processLine, hlen, hjson, processJsonLine, hmac]

/-- C7 witness: the concrete line `{}` with an extractor finding no MAC. -/
theorem C7_no_mac_passthrough_witness :
    looksLikeJSON ['\x7b', '\x7d'] = true ∧
    ((fun _ : List Char => ((none : Option String), "")) ['\x7b', '\x7d']).1 = none ∧
    processLine (fun _ => (none, "")) dedupInit zeroStats 42 ['\x7b', '\x7d'] =
      (dedupInit,
       { zeroStats with msgForwarded := u32 (zeroStats.msgForwarded + 1) },
       Emit.verbatim) :=
  ⟨by decide, rfl,
   C7_no_mac_passthrough (fun _ => (none, "")) dedupInit zeroStats 42
     ['\x7b', '\x7d'] (by decide) rfl⟩

/-! ## C1: merge correctness of the tracking registry -/

/-- C1 (amended): for every sequence of well-sized BLE-delivered fragments
applied to one drone's record, each field equals the value carried by the
most recent fragment that carried it, and fields no later fragment carried
retain their prior value (`MergeOk`). -/
theorem C1_ble_merge_correctness (env : DecodeEnv) (junk : UninitLocals)
    (u : UavData) (l : List BleEv)
    (h : ∀ ev ∈ l, ODID_MESSAGE_SIZE ≤ ev.msg.length) :
    MergeOk env junk u l :=
  mergeOk_of_sized env junk u l h

/-- C1 witness: a singleton Basic ID sequence on the zero record. -/
theorem C1_ble_merge_correctness_witness :
    (∀ ev ∈ [bleEv1], ODID_MESSAGE_SIZE ≤ ev.msg.length) ∧
    MergeOk env0 junk0 zeroUav [bleEv1] :=
  ⟨by decide, C1_ble_merge_correctness env0 junk0 zeroUav [bleEv1] (by decide)⟩

/-- C1 counterexample: the claim as stated is false for WiFi-delivered
fragments.  A BLE Operator ID fragment from `mac1` stores `op_id = "OP1"` in
slot 0; a subsequent WiFi NAN pack from the same `mac1` carrying only a valid
Location section is handled by `*stored = UAV`, which replaces the record
wholesale: afterwards `op_id` is `""` although the most recent fragment that
carried `op_id` carried `"OP1"` and no slot reallocation took place (the MAC
match still selects slot 0). -/
theorem C1_wifi_wholesale_reset_counterexample :
    ((bleOnResult env0 junk0 (List.replicate 8 zeroUav)
        ⟨true, 0x0D :: 0x50 :: List.replicate 24 0, mac1, -40, 1000⟩).1
      |> fun t1 =>
        ((t1.getD 0 zeroUav).op_id = "OP1" ∧
         (t1.getD 0 zeroUav).mac = mac1) ∧
        ((wifiStorePack t1 mac1 (-45) 2000
            ⟨false, "", true, ⟨471, -1223, 100, 10, 5, 90⟩,
             false, ⟨0, 0⟩, false, ""⟩).1
          |> fun t2 =>
            (t2.getD 0 zeroUav).mac = mac1 ∧
            (t2.getD 0 zeroUav).lat_d = 471 ∧
            (t2.getD 0 zeroUav).op_id = "")) := by
  decide

/-! ## C2: eviction policy on a full table -/

/-- C2 (amended): on a miss with no empty slot the node-mode `next_uav`
selects the slot with the numerically smallest `last_seen`, ties broken by
the lowest index; the `remoteid-mesh-dualcore-c5` variant falls back to slot 0
unconditionally; and the claimed slot is not reset before the merge — merging
a Basic ID fragment leaves the previous occupant's `op_id` in place. -/
theorem C2_eviction_policy (uavs : List UavData) (m : Mac)
    (hne : uavs ≠ [])
    (hmatch : ∀ j, j < uavs.length → (uavs.getD j zeroUav).mac ≠ m)
    (hempty : ∀ j, j < uavs.length → (uavs.getD j zeroUav).mac.b0 ≠ 0)
    (hbound : ∀ j, j < uavs.length →
      (uavs.getD j zeroUav).last_seen ≤ UINT32_MAX) :
    EvictSel uavs m ∧
    (∀ (env : DecodeEnv) (junk : UninitLocals) (u : UavData) (ev : BleEv),
      msgNibble ev.msg = 0x00 → (bleRecStep env junk u ev).op_id = u.op_id) := by
  have hm : scanFind (fun u => decide (u.mac = m)) uavs = none := by
    cases hfind : scanFind (fun u => decide (u.mac = m)) uavs with
    | none => rfl
    | some i =>
      obtain ⟨hi, hp, _⟩ := scanFind_some _ _ _ zeroUav hfind
      exact absurd (of_decide_eq_true hp) (hmatch i hi)
  have he : scanFind (fun u => decide (u.mac.b0 = 0)) uavs = none := by
    cases hfind : scanFind (fun u => decide (u.mac.b0 = 0)) uavs with
    | none => rfl
    | some i =>
      obtain ⟨hi, hp, _⟩ := scanFind_some _ _ _ zeroUav hfind
      exact absurd (of_decide_eq_true hp) (hempty i hi)
  have hj : next_uav uavs m = oldestIdx (uavs.map (fun u => u.last_seen)) := by
    simp [next_uav, hm, he]
  have hjr : next_uav_rm uavs m = 0 := by
    simp [next_uav_rm, hm, he]
  have hlen : (uavs.map (fun u => u.last_seen)).length = uavs.length := by
    simp
  have hmapD : ∀ k, k < uavs.length →
      (uavs.map (fun u => u.last_seen)).getD k 0 =
        (uavs.getD k zeroUav).last_seen := by
    intro k hk
    exact getD_map _ _ _ zeroUav 0 hk
  obtain ⟨h1, h2, h3⟩ := oldestIdx_spec (uavs.map (fun u => u.last_seen))
    (by simpa using hne)
    (by
      intro k hk
      rw [hlen] at hk
      rw [hmapD k hk]
      exact hbound k hk)
  rw [hlen] at h1
  refine ⟨⟨by rw [hj]; exact h1, ?_, ?_, hjr⟩, ?_⟩
  · intro k hk
    have := h2 k (by rw [hlen]; exact hk)
    rw [hmapD _ h1, hmapD k hk] at this
    rw [hj]
    exact this
  · intro k hk
    rw [hj] at hk
    have hklt : k < uavs.length := lt_trans hk h1
    have := h3 k hk
    rw [hmapD _ h1, hmapD k hklt] at this
    rw [hj]
    exact this
  · intro env junk u ev hnib
    by_cases hlen1 : ev.msg.length < 1
    · simp [bleRecStep, hlen1, bleTouch]
    · simp [bleRecStep, hlen1, bleApplyMsg, hnib, bleTouch]

/-- C2 counterexample: the claim as stated fails twice on the code.  (a) On a
full table whose slot 1 is strictly oldest, the `remoteid-mesh-dualcore-c5`
`next_uav` claims slot 0 — not the slot with the smallest `last_seen`.
(b) The node-mode eviction does not reset the slot: merging a Basic ID
fragment from the new drone `macX` into the evicted slot (index 2, the
oldest) leaves the previous occupant's `op_id = "GHOST"` in the record now
keyed by `macX`. -/
theorem C2_eviction_counterexample :
    (next_uav_rm
        [mkUav 1 10 "", mkUav 2 5 "", mkUav 3 20 "", mkUav 4 21 "",
         mkUav 5 22 "", mkUav 6 23 "", mkUav 7 24 "", mkUav 8 25 ""] macX = 0 ∧
     ([mkUav 1 10 "", mkUav 2 5 "", mkUav 3 20 "", mkUav 4 21 "",
       mkUav 5 22 "", mkUav 6 23 "", mkUav 7 24 "", mkUav 8 25 ""].getD 1
         zeroUav).last_seen <
       ([mkUav 1 10 "", mkUav 2 5 "", mkUav 3 20 "", mkUav 4 21 "",
         mkUav 5 22 "", mkUav 6 23 "", mkUav 7 24 "", mkUav 8 25 ""].getD 0
           zeroUav).last_seen) ∧
    ((bleOnResult env0 junk0
        [mkUav 1 10 "", mkUav 2 11 "", mkUav 3 1 "GHOST", mkUav 4 21 "",
         mkUav 5 22 "", mkUav 6 23 "", mkUav 7 24 "", mkUav 8 25 ""]
        ⟨true, 0x0D :: 0x00 :: List.replicate 24 0, macX, -40, 5000⟩).1
      |> fun t =>
        (t.getD 2 zeroUav).mac = macX ∧
        (t.getD 2 zeroUav).uav_id = "BID" ∧
        (t.getD 2 zeroUav).op_id = "GHOST") := by
  decide

/-- C2 witness: a concrete full table with distinct nonzero-first-byte MACs,
slot 1 strictly oldest, all `last_seen` within `uint32_t` range. -/
theorem C2_eviction_policy_witness :
    (([mkUav 1 10 "", mkUav 2 5 "", mkUav 3 20 "", mkUav 4 21 "",
       mkUav 5 22 "", mkUav 6 23 "", mkUav 7 24 "", mkUav 8 25 ""] :
        List UavData) ≠ [] ∧
     (∀ j, j < ([mkUav 1 10 "", mkUav 2 5 "", mkUav 3 20 "", mkUav 4 21 "",
        mkUav 5 22 "", mkUav 6 23 "", mkUav 7 24 "", mkUav 8 25 ""] :
         List UavData).length →
       (([mkUav 1 10 "", mkUav 2 5 "", mkUav 3 20 "", mkUav 4 21 "",
          mkUav 5 22 "", mkUav 6 23 "", mkUav 7 24 "", mkUav 8 25 ""] :
           List UavData).getD j zeroUav).mac ≠ macX)) ∧
    EvictSel
      [mkUav 1 10 "", mkUav 2 5 "", mkUav 3 20 "", mkUav 4 21 "",
       mkUav 5 22 "", mkUav 6 23 "", mkUav 7 24 "", mkUav 8 25 ""] macX :=
  ⟨⟨by decide, by decide⟩,
   (C2_eviction_policy
     [mkUav 1 10 "", mkUav 2 5 "", mkUav 3 20 "", mkUav 4 21 "",
      mkUav 5 22 "", mkUav 6 23 "", mkUav 7 24 "", mkUav 8 25 ""] macX
     (by decide) (by decide) (by decide) (by decide)).1⟩

/-! ## C6: empty-slot sentinel -/

/-- C6 (amended): on a miss, a slot counts as empty exactly when the first
byte of its `mac` is zero (`uavs[i].mac[0] == 0`), and the first such slot is
claimed (identically in both `next_uav` variants); the all-zero sentinel is
not required beyond the first byte. -/
theorem C6_empty_slot_selection (uavs : List UavData) (m : Mac)
    (hmatch : ∀ j, j < uavs.length → (uavs.getD j zeroUav).mac ≠ m)
    (hex : ∃ j, j < uavs.length ∧ (uavs.getD j zeroUav).mac.b0 = 0) :
    FirstB0Sel uavs m := by
  have hm : scanFind (fun u => decide (u.mac = m)) uavs = none := by
    cases hfind : scanFind (fun u => decide (u.mac = m)) uavs with
    | none => rfl
    | some i =>
      obtain ⟨hi, hp, _⟩ := scanFind_some _ _ _ zeroUav hfind
      exact absurd (of_decide_eq_true hp) (hmatch i hi)
  cases hfind : scanFind (fun u => decide (u.mac.b0 = 0)) uavs with
  | none =>
    obtain ⟨j, hj, hb0⟩ := hex
    have := scanFind_none _ _ zeroUav hfind j hj
    rw [decide_eq_false_iff_not] at this
    exact absurd hb0 this
  | some i =>
    obtain ⟨hi, hp, hbefore⟩ := scanFind_some _ _ _ zeroUav hfind
    have hj : next_uav uavs m = i := by
      simp [next_uav, hm, hfind]
    have hjr : next_uav_rm uavs m = i := by
      simp [next_uav_rm, hm, hfind]
    refine ⟨by rw [hj]; exact hi, by rw [hj]; exact of_decide_eq_true hp,
      ?_, by rw [hj, hjr]⟩
    intro k hk
    rw [hj] at hk
    have := hbefore k hk
    rw [decide_eq_false_iff_not] at this
    exact this

/-- C6 counterexample: slot 0 of `tblC6` holds a live drone whose MAC is
`00:11:22:33:44:55` — not the all-zero sentinel — yet the empty-slot scan
claims it for the unrelated drone `macX`, so the fragment is merged into a
slot belonging to a different drone. -/
theorem C6_empty_slot_counterexample :
    next_uav tblC6 macX = 0 ∧
    (tblC6.getD 0 zeroUav).mac ≠ zeroMac ∧
    (tblC6.getD 0 zeroUav).mac ≠ macX := by
  decide

/-- C6 witness: a table whose slot 1 is genuinely all-zero while slot 0 is
occupied by a different drone with a nonzero first byte. -/
theorem C6_empty_slot_selection_witness :
    ((∀ j, j < ([mkUav 1 10 "", zeroUav, mkUav 3 20 ""] :
        List UavData).length →
       (([mkUav 1 10 "", zeroUav, mkUav 3 20 ""] :
          List UavData).getD j zeroUav).mac ≠ macX) ∧
     (∃ j, j < ([mkUav 1 10 "", zeroUav, mkUav 3 20 ""] :
        List UavData).length ∧
       (([mkUav 1 10 "", zeroUav, mkUav 3 20 ""] :
          List UavData).getD j zeroUav).mac.b0 = 0)) ∧
    FirstB0Sel [mkUav 1 10 "", zeroUav, mkUav 3 20 ""] macX :=
  ⟨⟨by decide, by decide⟩,
   C6_empty_slot_selection [mkUav 1 10 "", zeroUav, mkUav 3 20 ""] macX
     (by decide) (by decide)⟩

/-! ## C4: undersized-fragment handling (code bug) -/

/-- C4: evaluation of the BLE handler at the failing input.  The undersized
Location fragment skips the decode call, but the field copies still execute,
so slot 0's `lat_d`/`long_d` become whatever the uninitialised stack local
`loc` happens to hold (`junk.loc`) — for any `junk` with
`junk.loc.lat ≠ 7` the record is changed, not left unchanged as the claim
(and the guard's evident intent) require. -/
theorem C4_undersized_overwrites (env : DecodeEnv) (junk : UninitLocals) :
    (tblC4.getD 0 zeroUav).lat_d = 7 ∧
    ((bleOnResult env junk tblC4 inpC4).1.getD 0 zeroUav).lat_d =
      junk.loc.lat ∧
    ((bleOnResult env junk tblC4 inpC4).1.getD 0 zeroUav).long_d =
      junk.loc.long := by
  refine ⟨rfl, ?_, ?_⟩ <;> rfl

/-! ## C10: unrecognized message types still produce output -/

/-- C10: for every BLE advertisement carrying at least 3 bytes of Remote-ID
service data whose first message byte's high nibble is none of
0x0, 0x1, 0x4, 0x5, the slot for the advertiser's MAC is still allocated or
updated (`mac`, `rssi`, `last_seen`, `flag` written) and a full snapshot of
that slot is still offered to the output queue, in both handler variants. -/
theorem C10_unknown_type_still_output (env : DecodeEnv) (junk : UninitLocals)
    (tbl : List UavData) (inp : BleInput)
    (h1 : inp.hasServiceData = true)
    (h2 : 3 ≤ inp.svcData.length)
    (h3 : msgNibble (inp.svcData.drop 1) ≠ 0x00)
    (h4 : msgNibble (inp.svcData.drop 1) ≠ 0x10)
    (h5 : msgNibble (inp.svcData.drop 1) ≠ 0x40)
    (h6 : msgNibble (inp.svcData.drop 1) ≠ 0x50) :
    UnknownTypeOk env junk tbl inp := by
  rw [List.drop_one] at h3 h4 h5 h6
  have hl2 : ¬ inp.svcData.length < 2 := by omega
  have hl3 : ¬ inp.svcData.length < 3 := by omega
  have hlen1 : ¬ (inp.svcData.length - 1 = 0) := by omega
  have hm1 : ¬ (inp.svcData.drop 1).length < 1 := by
    simp only [List.length_drop]
    omega
  constructor
  · simp [bleOnResult, h1, hl2, hl3, hm1, hlen1, bleApplyMsg, h3, h4, h5, h6]
  · simp [bleOnResultRM, h1, hl3, hm1, hlen1, bleApplyMsg, h3, h4, h5, h6,
      bleTouch]

/-- C10 witness: a 3-byte service data with message high nibble `0x2` on the
empty table. -/
theorem C10_unknown_type_still_output_witness :
    ((true : Bool) = true ∧
     3 ≤ ([0x0D, 0x20, 0x00] : List Nat).length ∧
     msgNibble (([0x0D, 0x20, 0x00] : List Nat).drop 1) ≠ 0x00 ∧
     msgNibble (([0x0D, 0x20, 0x00] : List Nat).drop 1) ≠ 0x10 ∧
     msgNibble (([0x0D, 0x20, 0x00] : List Nat).drop 1) ≠ 0x40 ∧
     msgNibble (([0x0D, 0x20, 0x00] : List Nat).drop 1) ≠ 0x50) ∧
    UnknownTypeOk env0 junk0 (List.replicate 8 zeroUav)
      ⟨true, [0x0D, 0x20, 0x00], mac1, -50, 42⟩ :=
  ⟨⟨rfl, by decide, by decide, by decide, by decide, by decide⟩,
   C10_unknown_type_still_output env0 junk0 (List.replicate 8 zeroUav)
     ⟨true, [0x0D, 0x20, 0x00], mac1, -50, 42⟩
     rfl (by decide) (by decide) (by decide) (by decide) (by decide)⟩

/-! ## C8: dedup table invariant -/

theorem getD_replicate (n i : Nat) (x d : α) (h : i < n) :
    (List.replicate n x).getD i d = x := by
  induction n generalizing i with
  | zero => omega
  | succ m ih =>
    cases i with
    | zero => rfl
    | succ k => exact ih k (by omega)

theorem dedupInv_mono (tbl : List DedupEntry) (T T' : Nat) (h : T ≤ T')
    (hInv : DedupInv tbl T) : DedupInv tbl T' := by
  refine ⟨fun i hi ha => ?_, hInv.2⟩
  obtain ⟨h1, h2⟩ := hInv.1 i hi ha
  exact ⟨h1, le_trans h2 h⟩

/-- Setting index `i` to an entry `e'` that keeps the old entry's MAC and
does not activate a previously inactive entry preserves MAC uniqueness. -/
theorem dedupUnique_set_same_mac (tbl : List DedupEntry) (i : Nat)
    (e' : DedupEntry)
    (hmac : e'.mac = (tbl.getD i zeroEntry).mac)
    (hact : e'.active = true → (tbl.getD i zeroEntry).active = true)
    (huniq : ∀ a b, a < tbl.length → b < tbl.length → a ≠ b →
      (tbl.getD a zeroEntry).active = true →
      (tbl.getD b zeroEntry).active = true →
      (tbl.getD a zeroEntry).mac ≠ (tbl.getD b zeroEntry).mac) :
    ∀ a b, a < (tbl.set i e').length → b < (tbl.set i e').length → a ≠ b →
      ((tbl.set i e').getD a zeroEntry).active = true →
      ((tbl.set i e').getD b zeroEntry).active = true →
      ((tbl.set i e').getD a zeroEntry).mac ≠
        ((tbl.set i e').getD b zeroEntry).mac := by
  intro a b ha hb hab hacta hactb
  rw [List.length_set] at ha hb
  by_cases hai : a = i
  · subst hai
    rw [getD_set_eq _ _ _ _ ha] at hacta ⊢
    rw [getD_set_ne _ _ _ _ _ hab.symm] at hactb ⊢
    rw [hmac]
    exact huniq a b ha hb hab (hact hacta) hactb
  · rw [getD_set_ne _ _ _ _ _ hai] at hacta ⊢
    by_cases hbi : b = i
    · subst hbi
      rw [getD_set_eq _ _ _ _ hb] at hactb ⊢
      rw [hmac]
      exact huniq a b ha hb hab hacta (hact hactb)
    · rw [getD_set_ne _ _ _ _ _ hbi] at hactb ⊢
      exact huniq a b ha hb hab hacta hactb

/-- Setting index `i < len` to an entry whose MAC no other active entry
holds preserves MAC uniqueness. -/
theorem dedupUnique_set_new_mac (tbl : List DedupEntry) (i : Nat)
    (e' : DedupEntry) (hi : i < tbl.length)
    (hfresh : ∀ a, a < tbl.length → a ≠ i →
      (tbl.getD a zeroEntry).active = true →
      (tbl.getD a zeroEntry).mac ≠ e'.mac)
    (huniq : ∀ a b, a < tbl.length → b < tbl.length → a ≠ b →
      (tbl.getD a zeroEntry).active = true →
      (tbl.getD b zeroEntry).active = true →
      (tbl.getD a zeroEntry).mac ≠ (tbl.getD b zeroEntry).mac) :
    ∀ a b, a < (tbl.set i e').length → b < (tbl.set i e').length → a ≠ b →
      ((tbl.set i e').getD a zeroEntry).active = true →
      ((tbl.set i e').getD b zeroEntry).active = true →
      ((tbl.set i e').getD a zeroEntry).mac ≠
        ((tbl.set i e').getD b zeroEntry).mac := by
  intro a b ha hb hab hacta hactb
  rw [List.length_set] at ha hb
  by_cases hai : a = i
  · subst hai
    rw [getD_set_eq _ _ _ _ ha] at hacta ⊢
    rw [getD_set_ne _ _ _ _ _ hab.symm] at hactb ⊢
    exact fun hEq => hfresh b hb (Ne.symm hab) hactb hEq.symm
  · rw [getD_set_ne _ _ _ _ _ hai] at hacta ⊢
    by_cases hbi : b = i
    · subst hbi
      rw [getD_set_eq _ _ _ _ hb] at hactb ⊢
      exact hfresh a ha hai hacta
    · rw [getD_set_ne _ _ _ _ _ hbi] at hactb ⊢
      exact huniq a b ha hb hab hacta hactb

/-- Sweep step preserves the invariant, advancing the bound. -/
theorem dedupInv_sweep (tbl : List DedupEntry) (t T : Nat)
    (hInv : DedupInv tbl T) (hT : T ≤ t) :
    DedupInv (dedupCleanStale tbl t) t := by
  obtain ⟨hok, huniq⟩ := hInv
  have hlen : (dedupCleanStale tbl t).length = tbl.length := by
    simp [dedupCleanStale]
  have hgetD : ∀ k, k < tbl.length →
      (dedupCleanStale tbl t).getD k zeroEntry =
        (if (tbl.getD k zeroEntry).active &&
            decide (DEDUP_STALE_MS <
              u32sub (u32 t) (tbl.getD k zeroEntry).lastSeen) then
          { tbl.getD k zeroEntry with active := false }
        else tbl.getD k zeroEntry) := by
    intro k hk
    exact getD_map _ _ _ zeroEntry zeroEntry hk
  constructor
  · intro k hk
    rw [hlen] at hk
    rw [hgetD k hk]
    by_cases hc : ((tbl.getD k zeroEntry).active &&
        decide (DEDUP_STALE_MS <
          u32sub (u32 t) (tbl.getD k zeroEntry).lastSeen)) = true
    · rw [if_pos hc]
      intro ha
      simp at ha
    · rw [if_neg hc]
      intro ha
      obtain ⟨h1, h2⟩ := hok k hk ha
      exact ⟨h1, le_trans h2 hT⟩
  · intro a b ha hb hab hacta hactb
    rw [hlen] at ha hb
    rw [hgetD a ha] at hacta ⊢
    rw [hgetD b hb] at hactb ⊢
    by_cases hca : ((tbl.getD a zeroEntry).active &&
        decide (DEDUP_STALE_MS <
          u32sub (u32 t) (tbl.getD a zeroEntry).lastSeen)) = true
    · rw [if_pos hca] at hacta
      simp at hacta
    · rw [if_neg hca] at hacta ⊢
      by_cases hcb : ((tbl.getD b zeroEntry).active &&
          decide (DEDUP_STALE_MS <
            u32sub (u32 t) (tbl.getD b zeroEntry).lastSeen)) = true
      · rw [if_pos hcb] at hactb
        simp at hactb
      · rw [if_neg hcb] at hactb ⊢
        exact huniq a b ha hb hab hacta hactb

/-- Arrival step preserves the invariant, advancing the bound. -/
theorem dedupInv_arrival (tbl : List DedupEntry) (st : Stats)
    (mac : Option String) (nid : String) (t T : Nat)
    (hInv : DedupInv tbl T) (hT : T ≤ t) (hb : t < U32M) :
    DedupInv (processJsonLine tbl st t ⟨mac, nid⟩).1 t := by
  obtain ⟨hok, huniq⟩ := hInv
  have hu : u32 t = t := Nat.mod_eq_of_lt hb
  cases mac with
  | none =>
    exact dedupInv_mono tbl T t hT ⟨hok, huniq⟩
  | some m =>
    cases hfind : dedupFind tbl m with
    | some i =>
      obtain ⟨hi, hp, _⟩ := scanFind_some _ _ _ zeroEntry hfind
      rw [Bool.and_eq_true] at hp
      have hact : (tbl.getD i zeroEntry).active = true := hp.1
      have hres : (processJsonLine tbl st t ⟨some m, nid⟩).1 =
          if DEDUP_WINDOW_MS ≤
              u32sub (u32 t) (tbl.getD i zeroEntry).windowStart then
            tbl.set i { tbl.getD i zeroEntry with
              lastSeen := u32 t, windowStart := u32 t,
              dupsBlocked := 0, firstNodeId := nid }
          else
            tbl.set i { tbl.getD i zeroEntry with
              lastSeen := u32 t,
              dupsBlocked :=
                u8 ((tbl.getD i zeroEntry).dupsBlocked + 1) } := by
        simp [processJsonLine, hfind, apply_ite]
        split
        · intro h2
          omega
        · intro h2
          omega
      rw [hres]
      by_cases hcond : DEDUP_WINDOW_MS ≤
          u32sub (u32 t) (tbl.getD i zeroEntry).windowStart
      · rw [if_pos hcond]
        constructor
        · intro k hk
          rw [List.length_set] at hk
          by_cases hki : k = i
          · subst hki
            rw [getD_set_eq _ _ _ _ hk]
            intro _
            exact ⟨le_refl _, le_of_eq hu⟩
          · rw [getD_set_ne _ _ _ _ _ hki]
            intro ha
            obtain ⟨h1, h2⟩ := hok k hk ha
            exact ⟨h1, le_trans h2 hT⟩
        · exact dedupUnique_set_same_mac tbl i _ rfl (fun h => hact) huniq
      · rw [if_neg hcond]
        constructor
        · intro k hk
          rw [List.length_set] at hk
          by_cases hki : k = i
          · subst hki
            rw [getD_set_eq _ _ _ _ hk]
            intro _
            obtain ⟨h1, h2⟩ := hok k hk hact
            refine ⟨?_, le_of_eq hu⟩
            show (tbl.getD k zeroEntry).windowStart ≤ u32 t
            rw [hu]
            exact le_trans h1 (le_trans h2 hT)
          · rw [getD_set_ne _ _ _ _ _ hki]
            intro ha
            obtain ⟨h1, h2⟩ := hok k hk ha
            exact ⟨h1, le_trans h2 hT⟩
        · exact dedupUnique_set_same_mac tbl i _ rfl (fun h => hact) huniq
    | none =>
      have hnomac : ∀ a, a < tbl.length →
          (tbl.getD a zeroEntry).active = true →
          (tbl.getD a zeroEntry).mac ≠ m := by
        intro a ha hacta hEq
        have := scanFind_none _ _ zeroEntry hfind a ha
        rw [hacta, hEq] at this
        simp at this
      cases hemp : scanFind (fun e => !e.active) tbl with
      | some i0 =>
        obtain ⟨hi0, hp0, _⟩ := scanFind_some _ _ _ zeroEntry hemp
        have hinact : (tbl.getD i0 zeroEntry).active = false := by
          simpa using hp0
        have hres : (processJsonLine tbl st t ⟨some m, nid⟩).1 =
            tbl.set i0 (openedEntry m nid t) := by
          simp [processJsonLine, hfind, dedupAlloc, hemp,
            getD_set_eq _ _ _ _ hi0, List.set_set, openedEntry, freshEntry,
            List.getElem?_set_eq_of_lt _ hi0]
        rw [hres]
        constructor
        · intro k hk
          rw [List.length_set] at hk
          by_cases hki : k = i0
          · subst hki
            rw [getD_set_eq _ _ _ _ hk]
            intro _
            exact ⟨le_refl _, le_of_eq hu⟩
          · rw [getD_set_ne _ _ _ _ _ hki]
            intro ha
            obtain ⟨h1, h2⟩ := hok k hk ha
            exact ⟨h1, le_trans h2 hT⟩
        · refine dedupUnique_set_new_mac tbl i0 _ hi0 ?_ huniq
          intro a ha hai hacta
          exact hnomac a ha hacta
      | none =>
        have hallact : ∀ a, a < tbl.length →
            (tbl.getD a zeroEntry).active = true := by
          intro a ha
          have := scanFind_none _ _ zeroEntry hemp a ha
          simpa using this
        by_cases htbl : tbl = []
        · subst htbl
          have hres : (processJsonLine [] st t ⟨some m, nid⟩).1 = [] := by
            simp [processJsonLine, dedupFind, dedupAlloc, scanFind,
              oldestIdx, oldestScan]
          rw [hres]
          exact ⟨fun i hi => by simp at hi, fun i j hi => by simp at hi⟩
        · have hlne : tbl.map (fun e => e.lastSeen) ≠ [] := by
            simpa using htbl
          have hbnd : ∀ k, k < (tbl.map (fun e => e.lastSeen)).length →
              (tbl.map (fun e => e.lastSeen)).getD k 0 ≤ UINT32_MAX := by
            intro k hk
            rw [List.length_map] at hk
            rw [getD_map _ _ _ zeroEntry 0 hk]
            obtain ⟨_, h2⟩ := hok k hk (hallact k hk)
            have hM : U32M = UINT32_MAX + 1 := rfl
            omega
          obtain ⟨hio, _, _⟩ :=
            oldestIdx_spec (tbl.map (fun e => e.lastSeen)) hlne hbnd
          rw [List.length_map] at hio
          have hres : (processJsonLine tbl st t ⟨some m, nid⟩).1 =
              tbl.set (oldestIdx (tbl.map (fun e => e.lastSeen)))
                (openedEntry m nid t) := by
            simp [processJsonLine, hfind, dedupAlloc, hemp,
              getD_set_eq _ _ _ _ hio, List.set_set, openedEntry, freshEntry,
              List.getElem?_set_eq_of_lt _ hio]
          rw [hres]
          constructor
          · intro k hk
            rw [List.length_set] at hk
            by_cases hki : k = oldestIdx (tbl.map (fun e => e.lastSeen))
            · subst hki
              rw [getD_set_eq _ _ _ _ hk]
              intro _
              exact ⟨le_refl _, le_of_eq hu⟩
            · rw [getD_set_ne _ _ _ _ _ hki]
              intro ha
              obtain ⟨h1, h2⟩ := hok k hk ha
              exact ⟨h1, le_trans h2 hT⟩
          · refine dedupUnique_set_new_mac tbl _ _ hio ?_ huniq
            intro a ha hai hacta
            exact hnomac a ha hacta

/-- One head-end event preserves the invariant, advancing the bound to the
event's timestamp. -/
theorem dedupInv_heStep (s : List DedupEntry × Stats) (ev : HeEvent) (T : Nat)
    (hInv : DedupInv s.1 T) (hT : T ≤ ev.time) (hb : ev.time < U32M) :
    DedupInv (heStep s ev).1 ev.time := by
  cases ev with
  | arrival mac nid t =>
    exact dedupInv_arrival s.1 s.2 mac nid t T hInv hT hb
  | sweep t =>
    exact dedupInv_sweep s.1 t T hInv hT

/-- Running any sequence of events with non-decreasing in-range timestamps
from an invariant state yields an invariant state. -/
theorem dedupInv_run (evs : List HeEvent) :
    ∀ (s : List DedupEntry × Stats) (T : Nat), DedupInv s.1 T →
      (∀ e ∈ evs, T ≤ e.time ∧ e.time < U32M) →
      List.Pairwise (fun a b => a.time ≤ b.time) evs →
      ∃ T2, DedupInv (runEvents s evs).1 T2 := by
  induction evs with
  | nil =>
    intro s T hInv _ _
    exact ⟨T, hInv⟩
  | cons e rest ih =>
    intro s T hInv hall hpair
    obtain ⟨hTe, hbe⟩ := hall e (by simp)
    have hstep : DedupInv (heStep s e).1 e.time :=
      dedupInv_heStep s e T hInv hTe hbe
    rw [List.pairwise_cons] at hpair
    refine ih (heStep s e) e.time hstep ?_ hpair.2
    intro x hx
    exact ⟨hpair.1 x hx, (hall x (by simp [hx])).2⟩

/-- C8: for every sequence of arrival events and stale sweeps with
non-decreasing timestamps below `2^32`, processed from head-end boot
(`dedupInit`, zero statistics), every active entry of the resulting dedup
table satisfies `windowStart ≤ lastSeen`, and no two distinct active entries
share a MAC.  Since the hypotheses are prefix-closed, the invariant holds
after each operation of the sequence. -/
theorem C8_dedup_invariant (evs : List HeEvent)
    (hpair : List.Pairwise (fun a b => a.time ≤ b.time) evs)
    (hb : ∀ e ∈ evs, e.time < U32M) :
    DedupClaim (runEvents (dedupInit, zeroStats) evs).1 := by
  have hInit : DedupInv dedupInit 0 := by
    constructor
    · intro i hi
      rw [show dedupInit.length = DEDUP_MAX_DRONES from by
        simp [dedupInit]] at hi
      rw [show dedupInit.getD i zeroEntry = zeroEntry from
        getD_replicate _ _ _ _ hi]
      intro ha
      simp [zeroEntry] at ha
    · intro i j hi hj hij hacti _
      rw [show dedupInit.length = DEDUP_MAX_DRONES from by
        simp [dedupInit]] at hi
      rw [show dedupInit.getD i zeroEntry = zeroEntry from
        getD_replicate _ _ _ _ hi] at hacti
      simp [zeroEntry] at hacti
  obtain ⟨T2, hInv⟩ := dedupInv_run evs (dedupInit, zeroStats) 0 hInit
    (fun e he => ⟨Nat.zero_le _, hb e he⟩) hpair
  exact ⟨fun i hi ha => (hInv.1 i hi ha).1, hInv.2⟩

/-- C8 witness: a concrete sequence — two arrivals for one MAC, an arrival
for another, and a stale sweep — with non-decreasing timestamps. -/
theorem C8_dedup_invariant_witness :
    (List.Pairwise (fun a b => a.time ≤ b.time)
      [HeEvent.arrival (some "X") "A" 5, HeEvent.arrival (some "X") "B" 100,
       HeEvent.arrival (some "Y") "C" 200, HeEvent.sweep 40000] ∧
     (∀ e ∈ [HeEvent.arrival (some "X") "A" 5,
       HeEvent.arrival (some "X") "B" 100,
       HeEvent.arrival (some "Y") "C" 200, HeEvent.sweep 40000],
       e.time < U32M)) ∧
    DedupClaim (runEvents (dedupInit, zeroStats)
      [HeEvent.arrival (some "X") "A" 5, HeEvent.arrival (some "X") "B" 100,
       HeEvent.arrival (some "Y") "C" 200, HeEvent.sweep 40000]).1 :=
  ⟨⟨by decide, by decide⟩,
   C8_dedup_invariant
     [HeEvent.arrival (some "X") "A" 5, HeEvent.arrival (some "X") "B" 100,
      HeEvent.arrival (some "Y") "C" 200, HeEvent.sweep 40000]
     (by decide) (by decide)⟩
